import Mathlib

/-
Shallow embedding of the graphsense-cli instance lifecycle orchestrator.

The Go source is embedded as pure Lean functions:
  - internal/docker.go: FindAvailablePortSet, GenerateInstanceName,
    SanitizeInstanceName, InstanceExists, CreateTempEnvFile, LoadAPIKeys
  - internal/database.go: StoreInstanceContainers, GetInstanceContainers,
    RemoveInstanceContainers (the SQLite table becomes a list of rows,
    INSERT OR REPLACE becomes delete-by-key-then-append, ORDER BY becomes
    an insertion sort on the container name)
  - cmd (deploy / stop / start / remove / logs / status): the control flow
    is embedded with the outside world (filesystem, docker, stdin) passed
    in as explicit environment records, and the externally visible actions
    recorded as an effect trace.

Machine integers are modelled as Int (Go int is 64-bit; no arithmetic here
comes near overflow).  Logging is not modelled (the spec places console
logging out of scope).  I/O failures of the SQLite layer and of temp-file
creation are modelled as boolean success flags in the environment records.
-/

namespace GraphSense

/-! ## Port allocator (internal/docker.go, FindAvailablePortSet) -/

def DefaultBasePort : Int := 8080

/-- One character-for-character transcription of the retry loop of
`FindAvailablePortSet`.  `inUse` stands for `isPortInUse` (the result of
attempting to bind a transient listener).  Go checks the triple at `port`;
if any port is busy it advances by 10 and errors once the advanced
candidate exceeds 65000. -/
def findPortLoop (inUse : Int → Bool) (basePort : Int) (port : Int) :
    Except String Int :=
  if inUse port || inUse (port + 100) || inUse (port + 200) then
    if port + 10 > 65000 then
      .error ("unable to find available port set starting from " ++ toString basePort)
    else
      findPortLoop inUse basePort (port + 10)
  else
    .ok port
termination_by (65010 - port).toNat
decreasing_by
  simp only [not_lt] at *
  omega

def FindAvailablePortSet (inUse : Int → Bool) (basePort : Int) :
    Except String Int :=
  let b := if basePort = 0 then DefaultBasePort else basePort
  findPortLoop inUse b b

/-! ## Instance names (internal/docker.go + cmd deploy) -/

/-- The character class `[a-z0-9]` of the sanitisation regexes. -/
def isLowerAlnum (c : Char) : Bool :=
  decide ((97 ≤ c.toNat ∧ c.toNat ≤ 122) ∨ (48 ≤ c.toNat ∧ c.toNat ≤ 57))

/-- `regexp.ReplaceAllString` for a pattern of the shape `[^…]+` replaced
by a single hyphen: every maximal run of characters satisfying `bad`
becomes one `-`.  The flag records whether the previous character was part
of a bad run. -/
def replaceRunsAux (bad : Char → Bool) : Bool → List Char → List Char
  | _, [] => []
  | prevBad, c :: rest =>
    if bad c then
      if prevBad then replaceRunsAux bad true rest
      else '-' :: replaceRunsAux bad true rest
    else c :: replaceRunsAux bad false rest

def replaceRuns (bad : Char → Bool) (l : List Char) : List Char :=
  replaceRunsAux bad false l

/-- `strings.Trim(s, "-")`: drop leading and trailing hyphens. -/
def trimHyphens (l : List Char) : List Char :=
  ((l.dropWhile (· == '-')).reverse.dropWhile (· == '-')).reverse

/-- `filepath.Base` (Unix semantics): empty path gives `"."`; trailing
slashes are stripped; the suffix after the last slash is returned; an
all-slash path gives `"/"`. -/
def filepathBase (s : List Char) : List Char :=
  if s = [] then ['.']
  else
    let r := s.reverse.dropWhile (· == '/')
    let name := r.takeWhile (· != '/')
    if name = [] then ['/'] else name.reverse

/-- `GenerateInstanceName`: base name of the path, lowered, runs of
characters outside `[a-z0-9]` collapsed to `-`, hyphens trimmed, then the
fixed prefixed label `graphsense-` is prepended. -/
def GenerateInstanceName (repoPath : String) : String :=
  let repoName := filepathBase repoPath.data
  let sanitized := replaceRuns (fun c => !(isLowerAlnum c)) (repoName.map Char.toLower)
  ("graphsense-" : String) ++ String.mk (trimHyphens sanitized)

/-- `SanitizeInstanceName`: lowercase, then collapse runs of characters
outside `[a-z0-9-]` to `-`.  Note: no trimming of hyphens here. -/
def SanitizeInstanceName (name : String) : String :=
  String.mk (replaceRuns (fun c => !(isLowerAlnum c || c == '-'))
    (name.data.map Char.toLower))

/-- The name `deployInstance` actually uses (cmd deploy, lines 51-57):
generate from the absolute repository path when none is supplied, then
sanitise in either case. -/
def deployName (absRepoPath suppliedName : String) : String :=
  SanitizeInstanceName
    (if suppliedName = "" then GenerateInstanceName absRepoPath else suppliedName)

/-! ## Go string helpers used by the embedded code

Lean's own `String.toLower`/`String.trim` work on byte positions and do
not reduce well in the kernel, so `strings.ToLower` and `strings.TrimSpace`
are embedded directly on the character list. -/

def goToLower (s : String) : String := String.mk (s.data.map Char.toLower)

/-- The ASCII white-space characters `strings.TrimSpace` strips (the Go
function also strips non-ASCII Unicode spaces, which never occur in the
fixed strings this code compares against). -/
def isSpaceChar (c : Char) : Bool :=
  decide (c = ' ' ∨ c = '\t' ∨ c = '\n' ∨ c = '\r' ∨ c = '\x0b' ∨ c = '\x0c')

def trimSpace (s : String) : String :=
  String.mk (((s.data.dropWhile isSpaceChar).reverse.dropWhile isSpaceChar).reverse)

/-! ## Existence check (internal/docker.go, InstanceExists)

`InstanceExists` shells out to `docker ps -a --filter label=…`; the query
result is embedded as `Option String`: `none` when `cmd.Output()` returned
an error, `some out` for its standard output.  The Go code returns `false`
on a query error and otherwise tests the trimmed output for non-emptiness. -/

def InstanceExists (query : Option String) : Bool :=
  match query with
  | none => false
  | some out => trimSpace out != ""

/-! ## Deploy configuration and rendered artifacts (internal/docker.go) -/

structure DeployConfig where
  repoPath : String
  instanceName : String
  appPort : Int
  postgresPort : Int
  neo4jBoltPort : Int
  coAPIKey : String
  anthropicAPIKey : String
deriving DecidableEq

/-- The key=value lines of the environment file `CreateTempEnvFile`
renders, in order (comment and blank lines of the Go template omitted;
the file content is these pairs joined as `KEY=VALUE` lines).  The two
credential lines are appended only when their value is non-empty, exactly
as in the Go code. -/
def CreateTempEnvFile (c : DeployConfig) : List (String × String) :=
  [(("REPO_PATH"), c.repoPath),
   (("PORT"), toString c.appPort),
   (("POSTGRES_PORT"), toString c.postgresPort),
   (("NEO4J_BOLT_PORT"), toString c.neo4jBoltPort),
   (("POSTGRES_DB"), ("graphsense")),
   (("POSTGRES_USER"), ("postgres")),
   (("POSTGRES_PASSWORD"), ("postgres")),
   (("NEO4J_AUTH"), ("none")),
   (("NEO4J_USERNAME"), ("neo4j")),
   (("NEO4J_PASSWORD"), ("")),
   (("NODE_ENV"), ("production")),
   (("LOG_LEVEL"), ("info")),
   (("INDEX_FROM_SCRATCH"), ("true")),
   (("CORS_ORIGIN"), ("*")),
   (("RATE_LIMIT_MAX"), ("100")),
   (("RATE_LIMIT_WINDOW"), ("900000"))]
  ++ (if c.coAPIKey ≠ "" then [(("CO_API_KEY"), c.coAPIKey)] else [])
  ++ (if c.anthropicAPIKey ≠ "" then [(("ANTHROPIC_API_KEY"), c.anthropicAPIKey)] else [])

/-! ## Secrets file (internal/docker.go, LoadAPIKeys) -/

/-- `strings.HasPrefix(line, "#")` on the character list. -/
def hasPrefixHash (l : List Char) : Bool :=
  match l with
  | '#' :: _ => true
  | _ => false

/-- `strings.SplitN(l, "=", 2)`: split at the first `=`; `none` when the
line contains no `=` (the Go code skips such lines because SplitN then
yields fewer than two parts). -/
def splitOnFirstEq : List Char → Option (List Char × List Char)
  | [] => none
  | c :: rest =>
    if c = '=' then some ([], rest)
    else
      match splitOnFirstEq rest with
      | none => none
      | some (k, v) => some (c :: k, v)

/-- One iteration of the scanner loop of `LoadAPIKeys`: trim the line,
skip blanks and comments, split at the first `=`, trim key and value. -/
def parseEnvLine (line : String) : Option (String × String) :=
  let l := trimSpace line
  if l.data = [] then none
  else if hasPrefixHash l.data then none
  else
    match splitOnFirstEq l.data with
    | none => none
    | some (k, v) => some (trimSpace (String.mk k), trimSpace (String.mk v))

/-- The `switch key` of the scanner loop: later lines overwrite earlier
ones; keys other than the two credential keys are ignored. -/
def applyEnvLine (acc : String × String) (line : String) : String × String :=
  match parseEnvLine line with
  | none => acc
  | some (k, v) =>
    if k = "CO_API_KEY" then (v, acc.2)
    else if k = "ANTHROPIC_API_KEY" then (acc.1, v)
    else acc

/-- `LoadAPIKeys`: fatal error when the secrets file is absent; otherwise
fold the scanner loop over the file's lines starting from two empty
values (so a key that never occurs stays empty).  Go's error message also
names the file path `~/.graphsense/.env`; the path rendering is not
modelled. -/
def LoadAPIKeys (fileExists : Bool) (lines : List String) :
    Except String (String × String) :=
  if fileExists = false then .error ("API keys file not found")
  else .ok (lines.foldl applyEnvLine (("", "")))

/-! ## Instance registry (internal/database.go)

The SQLite table `instances` is embedded as a list of rows; the
`UNIQUE(instance_name, container_name)` constraint together with
`INSERT OR REPLACE` makes an upsert delete the row with the matching key
and append the fresh row.  The autoincrement `id` and the `created_at`
timestamp are not part of any claim and are omitted from the row. -/

structure Row where
  instanceName : String
  containerName : String
  repoPath : String
  appPort : Int
  postgresPort : Int
  neo4jBoltPort : Int
deriving DecidableEq

/-- `INSERT OR REPLACE` keyed by `(instance_name, container_name)`. -/
def upsert (db : List Row) (r : Row) : List Row :=
  db.filter (fun x => !(x.instanceName == r.instanceName && x.containerName == r.containerName)) ++ [r]

def rowFor (c : DeployConfig) (containerName : String) : Row :=
  ⟨c.instanceName, containerName, c.repoPath, c.appPort, c.postgresPort, c.neo4jBoltPort⟩

/-- `StoreInstanceContainers`: one upsert per fixed container-name suffix,
in the order app, postgres, neo4j of the Go loop. -/
def StoreInstanceContainers (db : List Row) (c : DeployConfig) : List Row :=
  upsert (upsert (upsert db (rowFor c (c.instanceName ++ "-app")))
    (rowFor c (c.instanceName ++ "-postgres")))
    (rowFor c (c.instanceName ++ "-neo4j"))

/-- `GetInstanceContainers`: `SELECT … WHERE instance_name = ? ORDER BY
container_name` — filter by instance name, then sort by container name
(SQLite's default BINARY collation agrees with character order on the
ASCII names this code produces). -/
def GetInstanceContainers (db : List Row) (name : String) : List Row :=
  List.insertionSort (fun a b => a.containerName ≤ b.containerName)
    (db.filter (fun r => r.instanceName == name))

/-- `RemoveInstanceContainers`: `DELETE FROM instances WHERE
instance_name = ?`; the reported count is SQLite's RowsAffected, i.e. the
number of matching rows; a zero count is not special-cased.  The Go
function returns an error only when the database I/O itself fails, which
is outside this model, so the embedded version always returns `.ok`. -/
def RemoveInstanceContainers (db : List Row) (name : String) :
    Except String (List Row × Nat) :=
  .ok (db.filter (fun r => !(r.instanceName == name)),
       (db.filter (fun r => r.instanceName == name)).length)

/-! ## Lifecycle orchestrator (cmd deploy / stop / start / remove /
logs / status)

The outside world is passed in as an environment record and the
externally visible actions are recorded in an effect trace, in the order
the Go code performs them.  The durable store is threaded through
explicitly so that its (non-)modification is visible in the result. -/

inductive DeployEffect where
  | existsQuery
  | portScan
  | readSecrets
  | writeEnvFile
  | writeOverride
  | executorUp
  | healthProbe
  | registryStore
deriving DecidableEq

structure DeployEnv where
  pathExists : String → Bool
  absPath : String → String
  instanceLive : String → Bool
  portInUse : Int → Bool
  secretsFileExists : Bool
  secretsLines : List String
  envFileOk : Bool
  overrideOk : Bool
  homeDirOk : Bool
  composeFileExists : Bool
  composeUpOk : Bool
  storeOk : Bool

/-- `deployInstance` (cmd deploy, lines 39-151).  Checks and steps in Go
order: stat of the repository path, absolute path, name generation and
sanitisation, live-existence check against the executor, port allocation,
secrets loading, the two rendered artifacts, home-directory and compose
file lookup, the executor's `up` verb, the health probe (which in the Go
source always returns nil, timeout included), and the registry write
(non-fatal on failure).  Returns the Go error result, the effect trace,
and the registry state after the call. -/
def deployInstance (env : DeployEnv) (db : List Row)
    (repoPath suppliedName : String) (basePort : Int) :
    Except String Unit × List DeployEffect × List Row :=
  if env.pathExists repoPath = false then
    (.error ("repository path does not exist: " ++ repoPath), [], db)
  else
    let absRepoPath := env.absPath repoPath
    let name := deployName absRepoPath suppliedName
    if env.instanceLive name then
      (.error ("instance \x27" ++ name ++ "\x27 already exists. Use \x27remove\x27 command first"),
       [.existsQuery], db)
    else
      match FindAvailablePortSet env.portInUse basePort with
      | .error e =>
        (.error ("failed to find available ports: " ++ e),
         [.existsQuery, .portScan], db)
      | .ok appPort =>
        match LoadAPIKeys env.secretsFileExists env.secretsLines with
        | .error e =>
          (.error ("failed to load API keys: " ++ e),
           [.existsQuery, .portScan, .readSecrets], db)
        | .ok keys =>
          let config : DeployConfig :=
            ⟨absRepoPath, name, appPort, appPort + 100, appPort + 200,
             keys.1, keys.2⟩
          if env.envFileOk = false then
            (.error ("failed to create environment file"),
             [.existsQuery, .portScan, .readSecrets, .writeEnvFile], db)
          else if env.overrideOk = false then
            (.error ("failed to create compose override"),
             [.existsQuery, .portScan, .readSecrets, .writeEnvFile, .writeOverride], db)
          else if env.homeDirOk = false then
            (.error ("failed to get user home directory"),
             [.existsQuery, .portScan, .readSecrets, .writeEnvFile, .writeOverride], db)
          else if env.composeFileExists = false then
            (.error ("docker-compose.yml not found"),
             [.existsQuery, .portScan, .readSecrets, .writeEnvFile, .writeOverride], db)
          else if env.composeUpOk = false then
            (.error ("failed to deploy instance " ++ name),
             [.existsQuery, .portScan, .readSecrets, .writeEnvFile, .writeOverride,
              .executorUp], db)
          else
            (.ok (),
             [.existsQuery, .portScan, .readSecrets, .writeEnvFile, .writeOverride,
              .executorUp, .healthProbe, .registryStore],
             if env.storeOk then StoreInstanceContainers db config else db)

/-- Error message of the shared `!InstanceExists` gate (`instance '%s'
does not exist`). -/
def notExistMsg (name : String) : String :=
  "instance \x27" ++ name ++ "\x27 does not exist"

/-- `stopInstance`: gate on live existence, then the executor's `stop`
verb scoped by COMPOSE_PROJECT_NAME. -/
def stopInstance (query : Option String) (stopOk : Bool) (name : String) :
    Except String Unit :=
  if InstanceExists query = false then .error (notExistMsg name)
  else if stopOk then .ok ()
  else .error ("failed to stop instance " ++ name)

/-- `startInstance`: same gate, executor's `start` verb. -/
def startInstance (query : Option String) (startOk : Bool) (name : String) :
    Except String Unit :=
  if InstanceExists query = false then .error (notExistMsg name)
  else if startOk then .ok ()
  else .error ("failed to start instance " ++ name)

/-- `showLogs` (cmd/info.go): same gate, then the executor's `logs` verb. -/
def showLogs (query : Option String) (logsOk : Bool) (name : String) :
    Except String Unit :=
  if InstanceExists query = false then .error (notExistMsg name)
  else if logsOk then .ok ()
  else .error ("failed to show logs for " ++ name)

/-- `showStatus` (cmd/info.go): same gate, then a filtered `docker ps`. -/
def showStatus (query : Option String) (statusOk : Bool) (name : String) :
    Except String Unit :=
  if InstanceExists query = false then .error (notExistMsg name)
  else if statusOk then .ok ()
  else .error ("failed to show status for " ++ name)

inductive RemoveEffect where
  | composeDown
  | fallbackPs
  | fallbackRm
  | volumeSweep
  | registryRemoveAll
deriving DecidableEq

structure RemoveEnv where
  existsQuery : Option String
  readOk : Bool
  response : String
  downOk : Bool
  psOk : Bool

/-- `removeInstance` (cmd, lines 91-140).  Gate on live existence; read
the confirmation from stdin (the raw line, newline included); normalise
it with `strings.TrimSpace(strings.ToLower(response))`; anything but
`y`/`yes` cancels with a nil error.  On confirmation: the executor's
`down -v --remove-orphans`; on its failure a fallback `ps` listing and,
when the listing succeeded, a forced `rm`; then in every confirmed case
the volume sweep.  The function never touches the durable store — the
registry rows are returned unchanged and no `registryRemoveAll` effect is
ever emitted. -/
def removeInstance (env : RemoveEnv) (db : List Row) (name : String) :
    Except String Unit × List RemoveEffect × List Row :=
  if InstanceExists env.existsQuery = false then
    (.error (notExistMsg name), [], db)
  else if env.readOk = false then
    (.error ("failed to read confirmation"), [], db)
  else if trimSpace (goToLower env.response) ≠ "y" ∧
      trimSpace (goToLower env.response) ≠ "yes" then
    (.ok (), [], db)
  else if env.downOk then
    (.ok (), [RemoveEffect.composeDown, RemoveEffect.volumeSweep], db)
  else if env.psOk then
    (.ok (), [RemoveEffect.composeDown, RemoveEffect.fallbackPs,
      RemoveEffect.fallbackRm, RemoveEffect.volumeSweep], db)
  else
    (.ok (), [RemoveEffect.composeDown, RemoveEffect.fallbackPs,
      RemoveEffect.volumeSweep], db)

/-! # Theorems -/

/-- Claim C1 (counterexample): a `remove` invocation that passes the
existence pre-check and is confirmed with `y`, and whose executor `down`
verb fails, still performs no registry `removeAll`: the effect trace
contains no registry operation and the durable store, which holds one row
for the instance, is returned unchanged.  This refutes the claim that
every confirmed `remove` attempts the registry's `removeAll`. -/
theorem c1_counterexample :
    removeInstance ⟨some ("graphsense-demo-app\n"), true, "y\n", false, true⟩
        [⟨"graphsense-demo", "graphsense-demo-app", "/tmp/demo", 8080, 8180, 8280⟩]
        "graphsense-demo" =
      (.ok (),
       [RemoveEffect.composeDown, RemoveEffect.fallbackPs, RemoveEffect.fallbackRm,
        RemoveEffect.volumeSweep],
       [⟨"graphsense-demo", "graphsense-demo-app", "/tmp/demo", 8080, 8180, 8280⟩]) ∧
    RemoveEffect.registryRemoveAll ∉
      [RemoveEffect.composeDown, RemoveEffect.fallbackPs, RemoveEffect.fallbackRm,
       RemoveEffect.volumeSweep] := by
  exact ⟨rfl, by decide⟩

/-- Claim C1 (amended): `remove` never attempts the registry's
`removeAll` — on every path (pre-check failure, read failure,
cancellation, confirmed removal with the executor succeeding or failing)
the durable store is returned unchanged and the effect trace contains no
registry operation. -/
theorem c1_amended (env : RemoveEnv) (db : List Row) (name : String) :
    (removeInstance env db name).2.2 = db ∧
    RemoveEffect.registryRemoveAll ∉ (removeInstance env db name).2.1 := by
  unfold removeInstance
  repeat' split
  all_goals simp

/-- Claim C5: deploying against a repository path that does not exist
fails with the precondition error before anything else happens: no
executor query, no port scan, no secrets read, no artifact write, no
executor invocation, no registry write — the effect trace is empty and
the durable store is unchanged. -/
theorem c5_deploy_missing_path (env : DeployEnv) (db : List Row)
    (repoPath suppliedName : String) (basePort : Int)
    (h : env.pathExists repoPath = false) :
    deployInstance env db repoPath suppliedName basePort =
      (.error ("repository path does not exist: " ++ repoPath), [], db) := by
  unfold deployInstance
  simp [h]

/-- Witness for C5 at a concrete environment. -/
theorem c5_witness :
    (DeployEnv.pathExists ⟨fun _ => false, id, fun _ => false, fun _ => false,
        true, [], true, true, true, true, true, true⟩ "/nope" = false) ∧
    deployInstance ⟨fun _ => false, id, fun _ => false, fun _ => false,
        true, [], true, true, true, true, true, true⟩ [] "/nope" "" 0 =
      (.error ("repository path does not exist: /nope"), [], []) := by
  refine ⟨rfl, ?_⟩
  have h := c5_deploy_missing_path
    ⟨fun _ => false, id, fun _ => false, fun _ => false,
     true, [], true, true, true, true, true, true⟩ [] "/nope" "" 0 rfl
  simpa using h

/-- Claim C7: when the durable store holds at least one row for a name,
`removeAll` reports a nonzero removed count; calling it again on the
resulting store reports zero; neither call is an error (the embedded
function returns `.ok` on both calls — the Go code never special-cases a
zero count). -/
theorem c7_removeAll_idempotent (db : List Row) (name : String)
    (h : ∃ r ∈ db, r.instanceName = name) :
    ∃ db1 n1, RemoveInstanceContainers db name = .ok (db1, n1) ∧ 0 < n1 ∧
      RemoveInstanceContainers db1 name = .ok (db1, 0) := by
  refine ⟨_, _, rfl, ?_, ?_⟩
  · obtain ⟨r, hr, he⟩ := h
    have hm : r ∈ db.filter (fun r => r.instanceName == name) := by
      simp [List.mem_filter, hr, he]
    exact List.length_pos.mpr (List.ne_nil_of_mem hm)
  · unfold RemoveInstanceContainers
    have h1 : (db.filter (fun r => !(r.instanceName == name))).filter
        (fun r => !(r.instanceName == name)) =
        db.filter (fun r => !(r.instanceName == name)) := by
      rw [List.filter_filter]
      simp
    have h2 : (db.filter (fun r => !(r.instanceName == name))).filter
        (fun r => r.instanceName == name) = [] := by
      rw [List.filter_filter]
      simp
    rw [h1, h2]
    rfl

/-- Witness for C7 at a concrete one-row store. -/
theorem c7_witness :
    (∃ r ∈ [(⟨"a", "a-app", "/r", 1, 2, 3⟩ : Row)], r.instanceName = "a") ∧
    (∃ db1 n1,
      RemoveInstanceContainers [(⟨"a", "a-app", "/r", 1, 2, 3⟩ : Row)] "a" = .ok (db1, n1) ∧
      0 < n1 ∧ RemoveInstanceContainers db1 "a" = .ok (db1, 0)) := by
  refine ⟨⟨⟨"a", "a-app", "/r", 1, 2, 3⟩, by simp, rfl⟩, ?_⟩
  exact c7_removeAll_idempotent _ _ ⟨⟨"a", "a-app", "/r", 1, 2, 3⟩, by simp, rfl⟩

/-- Claim C9: a failing executor query makes `InstanceExists` report
false (the error is swallowed), exactly as an empty listing does, so
stop, start, remove, logs and status all answer with the
does-not-exist error when the executor is unreachable. -/
theorem c9_exists_swallows_error (name resp : String)
    (stopOk startOk logsOk statusOk readOk downOk psOk : Bool) (db : List Row) :
    InstanceExists none = false ∧
    InstanceExists none = InstanceExists (some "") ∧
    stopInstance none stopOk name = .error (notExistMsg name) ∧
    startInstance none startOk name = .error (notExistMsg name) ∧
    (removeInstance ⟨none, readOk, resp, downOk, psOk⟩ db name).1 =
      .error (notExistMsg name) ∧
    showLogs none logsOk name = .error (notExistMsg name) ∧
    showStatus none statusOk name = .error (notExistMsg name) := by
  refine ⟨rfl, by decide, ?_, ?_, ?_, ?_, ?_⟩ <;>
    simp [stopInstance, startInstance, removeInstance, showLogs, showStatus,
      InstanceExists]

/-- Claim C10: when the trimmed, lowercased confirmation is neither `y`
nor `yes`, `remove` returns success with an empty effect trace — no
`down` verb, no fallback sweep, no volume removal — and the durable store
untouched. -/
theorem c10_cancel_no_effects (env : RemoveEnv) (db : List Row) (name : String)
    (h1 : InstanceExists env.existsQuery = true) (h2 : env.readOk = true)
    (h3 : trimSpace (goToLower env.response) ≠ "y")
    (h4 : trimSpace (goToLower env.response) ≠ "yes") :
    removeInstance env db name = (.ok (), [], db) := by
  unfold removeInstance
  simp [h1, h2, h3, h4]

/-- Claim C2 (counterexample): with only port 8080 occupied, the
allocator retries and returns base 8090 — the candidate base advanced by
10, which is not larger than the maximum offset 200.  This refutes the
claimed size of the increment (the non-overlap and determinism parts are
proved in the amended theorem). -/
theorem c2_counterexample :
    ((fun p : Int => p == 8080) 8080 = true) ∧
    FindAvailablePortSet (fun p : Int => p == 8080) 8080 = .ok 8090 ∧
    ¬ ((8090 : Int) - 8080 > 200) := by
  refine ⟨rfl, ?_, by decide⟩
  rw [FindAvailablePortSet]
  rw [findPortLoop]
  norm_num
  rw [findPortLoop]
  norm_num

/-- Claim C2 (amended): when any port of the candidate triple is
occupied (and the advanced base is still in range), the allocator
deterministically advances the base by the fixed increment 10 — not by
an increment larger than the maximum offset 200 — and the next candidate
triple (base+10, base+110, base+210) still shares no port with the
just-tried triple (base, base+100, base+200), because the offsets are
multiples of 100 and the increment is not. -/
theorem c2_amended (inUse : Int → Bool) (b : Int)
    (hocc : (inUse b || inUse (b + 100) || inUse (b + 200)) = true)
    (hb : b + 10 ≤ 65000) :
    (∀ bp, findPortLoop inUse bp b = findPortLoop inUse bp (b + 10)) ∧
    (∀ i ∈ ([0, 100, 200] : List Int), ∀ j ∈ ([0, 100, 200] : List Int),
      b + i ≠ (b + 10) + j) := by
  constructor
  · intro bp
    have h2 : ¬ (b + 10 > 65000) := by omega
    rw [findPortLoop]
    simp [hocc, h2]
  · intro i hi j hj
    fin_cases hi <;> fin_cases hj <;> omega

/-- Witness for C2 (amended) at base 8080 with 8080 occupied. -/
theorem c2_amended_witness :
    (((fun p : Int => p == 8080) 8080 ||
      (fun p : Int => p == 8080) (8080 + 100) ||
      (fun p : Int => p == 8080) (8080 + 200)) = true) ∧
    ((8080 : Int) + 10 ≤ 65000) ∧
    ((∀ bp, findPortLoop (fun p : Int => p == 8080) bp 8080 =
        findPortLoop (fun p : Int => p == 8080) bp (8080 + 10)) ∧
     (∀ i ∈ ([0, 100, 200] : List Int), ∀ j ∈ ([0, 100, 200] : List Int),
        (8080 : Int) + i ≠ (8080 + 10) + j)) := by
  exact ⟨by decide, by decide, c2_amended _ 8080 (by decide) (by decide)⟩

/-- Total-correctness disjunction for the retry loop, by induction on
the distance to the 65000 cutoff: the loop either returns a base whose
whole triple was reported free, or returns the capacity error. -/
theorem findPortLoop_total (inUse : Int → Bool) (bp : Int) :
    ∀ (k : Nat) (port : Int), (65010 - port).toNat ≤ k →
    (∃ p, findPortLoop inUse bp port = .ok p ∧
      inUse p = false ∧ inUse (p + 100) = false ∧ inUse (p + 200) = false) ∨
    (∃ e, findPortLoop inUse bp port = .error e) := by
  intro k
  induction k with
  | zero =>
    intro port hk
    rw [findPortLoop]
    by_cases h : (inUse port || inUse (port + 100) || inUse (port + 200)) = true
    · right
      have h2 : port + 10 > 65000 := by omega
      simp [h, h2]
    · left
      have h3 := h
      simp only [Bool.or_eq_true, not_or, Bool.not_eq_true] at h3
      refine ⟨port, ?_, h3.1.1, h3.1.2, h3.2⟩
      simp [h]
  | succ n ih =>
    intro port hk
    rw [findPortLoop]
    by_cases h : (inUse port || inUse (port + 100) || inUse (port + 200)) = true
    · by_cases h2 : port + 10 > 65000
      · right
        simp [h, h2]
      · have step := ih (port + 10) (by omega)
        simpa [h, h2] using step
    · left
      have h3 := h
      simp only [Bool.or_eq_true, not_or, Bool.not_eq_true] at h3
      refine ⟨port, ?_, h3.1.1, h3.1.2, h3.2⟩
      simp [h]

/-- Claim C3: the allocator terminates for every starting base (the
embedded loop is a total function) and either returns a base whose
triple was free at check time or returns the capacity error. -/
theorem c3_port_allocator_total (inUse : Int → Bool) (basePort : Int) :
    (∃ p, FindAvailablePortSet inUse basePort = .ok p ∧
      inUse p = false ∧ inUse (p + 100) = false ∧ inUse (p + 200) = false) ∨
    (∃ e, FindAvailablePortSet inUse basePort = .error e) := by
  unfold FindAvailablePortSet
  exact findPortLoop_total inUse _ _ _ le_rfl

/-- Claim C4 (counterexample): deploying a repository path whose base
directory name is three hyphens, with no supplied name, produces the
instance name `graphsense-`, which ends in a hyphen — refuting the
no-trailing-hyphen part of the claim. -/
theorem c4_counterexample :
    deployName ("/home/user/---") ("") = "graphsense-" ∧
    (deployName ("/home/user/---") ("")).data.getLast? = some '-' := by
  exact ⟨rfl, by decide⟩

/-- Every character emitted by the run-collapsing replacement either
survived the `bad` test or is the replacement hyphen. -/
theorem replaceRunsAux_all (bad : Char → Bool) (b : Bool) (l : List Char) :
    ((replaceRunsAux bad b l).all (fun c => !(bad c) || c == '-')) = true := by
  induction l generalizing b with
  | nil => rfl
  | cons c rest ih =>
    unfold replaceRunsAux
    by_cases h : bad c = true
    · cases b <;> simp [h, ih]
    · simp only [Bool.not_eq_true] at h
      simp [h, ih]

/-- Every character of a sanitised name is a lowercase alphanumeric or a
hyphen. -/
theorem sanitize_charset (s : String) :
    ((SanitizeInstanceName s).data.all (fun c => isLowerAlnum c || c == '-')) = true := by
  unfold SanitizeInstanceName replaceRuns
  rw [List.all_eq_true]
  intro c hc
  have h := replaceRunsAux_all (fun c => !(isLowerAlnum c || c == '-')) false
    (s.data.map Char.toLower)
  rw [List.all_eq_true] at h
  have h2 := h c hc
  simp only [Bool.not_not] at h2
  cases hA : isLowerAlnum c <;> cases hH : (c == '-') <;> simp_all

/-- Claim C4 (amended): the instance name deploy uses — generated from
the path when no name is supplied, sanitised in either case — contains
only lowercase alphanumerics and hyphens; the no-leading/trailing-hyphen
part of the claim does not hold (see the counterexample), because the
hyphen trim happens only inside `GenerateInstanceName` before the
`graphsense-` label is prepended and a supplied name is never trimmed. -/
theorem c4_amended (absRepoPath suppliedName : String) :
    ((deployName absRepoPath suppliedName).data.all
      (fun c => isLowerAlnum c || c == '-')) = true := by
  unfold deployName
  exact sanitize_charset _

/-- Appending to a fixed string on the left preserves inequality of the
appended suffixes. -/
theorem string_append_right_ne (s : String) {a b : String} (h : a ≠ b) :
    s ++ a ≠ s ++ b := by
  intro he
  apply h
  have hd := congrArg String.data he
  simp only [String.data_append] at hd
  exact String.ext (List.append_cancel_left hd)

/-- The first credential stays empty when no scanned line parses to the
`CO_API_KEY` key. -/
theorem foldl_env_co (lines : List String) :
    ∀ acc : String × String,
    (∀ l ∈ lines, ∀ v, parseEnvLine l ≠ some (("CO_API_KEY"), v)) →
    (lines.foldl applyEnvLine acc).1 = acc.1 := by
  induction lines with
  | nil =>
    intro acc _
    rfl
  | cons l rest ih =>
    intro acc h
    simp only [List.foldl_cons]
    rw [ih _ (fun x hx v => h x (List.mem_cons_of_mem _ hx) v)]
    unfold applyEnvLine
    cases hp : parseEnvLine l with
    | none => rfl
    | some kv =>
      obtain ⟨k, v⟩ := kv
      have hk : ¬ (k = "CO_API_KEY") := by
        intro he
        exact h l (List.mem_cons_self _ _) v (by rw [hp, he])
      dsimp only
      rw [if_neg hk]
      split <;> rfl

/-- The second credential stays empty when no scanned line parses to the
`ANTHROPIC_API_KEY` key. -/
theorem foldl_env_anth (lines : List String) :
    ∀ acc : String × String,
    (∀ l ∈ lines, ∀ v, parseEnvLine l ≠ some (("ANTHROPIC_API_KEY"), v)) →
    (lines.foldl applyEnvLine acc).2 = acc.2 := by
  induction lines with
  | nil =>
    intro acc _
    rfl
  | cons l rest ih =>
    intro acc h
    simp only [List.foldl_cons]
    rw [ih _ (fun x hx v => h x (List.mem_cons_of_mem _ hx) v)]
    unfold applyEnvLine
    cases hp : parseEnvLine l with
    | none => rfl
    | some kv =>
      obtain ⟨k, v⟩ := kv
      have hk : ¬ (k = "ANTHROPIC_API_KEY") := by
        intro he
        exact h l (List.mem_cons_self _ _) v (by rw [hp, he])
      dsimp only
      by_cases hco : k = "CO_API_KEY"
      · rw [if_pos hco]
      · rw [if_neg hco, if_neg hk]

/-- Claim C8: (1) when the secrets file at the fixed location is absent
and deploy has passed the earlier checks, deploy fails with the
load-API-keys error; (2) when the file exists but no line defines an
individual credential key — either `CO_API_KEY` or `ANTHROPIC_API_KEY`
— loading succeeds with an empty value for the missing key; (3) the
rendered environment file carries an optional credential line exactly
when its value is non-empty. -/
theorem c8_secrets_handling :
    (∀ (env : DeployEnv) (db : List Row) (p nm : String) (bp : Int),
      env.pathExists p = true →
      env.instanceLive (deployName (env.absPath p) nm) = false →
      (∃ a, FindAvailablePortSet env.portInUse bp = .ok a) →
      env.secretsFileExists = false →
      (deployInstance env db p nm bp).1 =
        .error ("failed to load API keys: API keys file not found")) ∧
    (∀ lines : List String,
      ((∀ l ∈ lines, ∀ v, parseEnvLine l ≠ some (("CO_API_KEY"), v)) →
        (∃ anth, LoadAPIKeys true lines = .ok (("", anth)))) ∧
      ((∀ l ∈ lines, ∀ v, parseEnvLine l ≠ some (("ANTHROPIC_API_KEY"), v)) →
        (∃ co, LoadAPIKeys true lines = .ok ((co, ""))))) ∧
    (∀ c : DeployConfig,
      ((∃ v, (("CO_API_KEY"), v) ∈ CreateTempEnvFile c) ↔ c.coAPIKey ≠ "") ∧
      ((∃ v, (("ANTHROPIC_API_KEY"), v) ∈ CreateTempEnvFile c) ↔
        c.anthropicAPIKey ≠ "")) := by
  refine ⟨?_, ?_, ?_⟩
  · intro env db p nm bp h1 h2 h3 h4
    obtain ⟨a, ha⟩ := h3
    unfold deployInstance
    simp [h1, h2, ha, LoadAPIKeys, h4]
  · intro lines
    constructor
    · intro h
      refine ⟨(lines.foldl applyEnvLine (("", ""))).2, ?_⟩
      have hf := foldl_env_co lines (("", "")) h
      unfold LoadAPIKeys
      simp only [Bool.true_eq_false, if_false]
      rw [show lines.foldl applyEnvLine (("", "")) =
        (("", (lines.foldl applyEnvLine (("", ""))).2)) from Prod.ext hf rfl]
    · intro h
      refine ⟨(lines.foldl applyEnvLine (("", ""))).1, ?_⟩
      have hf := foldl_env_anth lines (("", "")) h
      unfold LoadAPIKeys
      simp only [Bool.true_eq_false, if_false]
      rw [show lines.foldl applyEnvLine (("", "")) =
        (((lines.foldl applyEnvLine (("", ""))).1, "")) from Prod.ext rfl hf]
  · intro c
    by_cases hco : c.coAPIKey = "" <;> by_cases han : c.anthropicAPIKey = "" <;>
      simp [CreateTempEnvFile, hco, han]

/-- Witness for C8 at a concrete environment whose secrets file is
absent, a one-comment-line secrets file, and a config with empty
credential values. -/
theorem c8_witness :
    (DeployEnv.pathExists ⟨fun _ => true, id, fun _ => false, fun _ => false,
        false, [], true, true, true, true, true, true⟩ "/r" = true) ∧
    (DeployEnv.secretsFileExists ⟨fun _ => true, id, fun _ => false, fun _ => false,
        false, [], true, true, true, true, true, true⟩ = false) ∧
    ((deployInstance ⟨fun _ => true, id, fun _ => false, fun _ => false,
        false, [], true, true, true, true, true, true⟩ [] "/r" "x" 0).1 =
      .error ("failed to load API keys: API keys file not found")) ∧
    (∀ l ∈ [("# only a comment")], ∀ v, parseEnvLine l ≠ some (("CO_API_KEY"), v)) ∧
    (∃ anth, LoadAPIKeys true [("# only a comment")] = .ok (("", anth))) ∧
    (∀ l ∈ [("# only a comment")], ∀ v,
      parseEnvLine l ≠ some (("ANTHROPIC_API_KEY"), v)) ∧
    (∃ co, LoadAPIKeys true [("# only a comment")] = .ok ((co, ""))) ∧
    ((∃ v, (("CO_API_KEY"), v) ∈
        CreateTempEnvFile ⟨"/r", "demo", 8080, 8180, 8280, "", ""⟩) ↔
      (DeployConfig.coAPIKey ⟨"/r", "demo", 8080, 8180, 8280, "", ""⟩ ≠ "")) := by
  have hnone : parseEnvLine ("# only a comment") = none := by decide
  have hcomment : ∀ l ∈ [("# only a comment")], ∀ v,
      parseEnvLine l ≠ some (("CO_API_KEY"), v) := by
    intro l hl v
    simp only [List.mem_singleton] at hl
    subst hl
    rw [hnone]
    simp
  have hcomment2 : ∀ l ∈ [("# only a comment")], ∀ v,
      parseEnvLine l ≠ some (("ANTHROPIC_API_KEY"), v) := by
    intro l hl v
    simp only [List.mem_singleton] at hl
    subst hl
    rw [hnone]
    simp
  refine ⟨rfl, rfl, ?_, hcomment, ?_, hcomment2, ?_, ?_⟩
  · refine c8_secrets_handling.1 _ [] "/r" "x" 0 rfl rfl ⟨8080, ?_⟩ rfl
    rw [FindAvailablePortSet]
    norm_num
    rw [findPortLoop]
    simp
    rfl
  · exact (c8_secrets_handling.2.1 _).1 hcomment
  · exact (c8_secrets_handling.2.1 _).2 hcomment2
  · exact (c8_secrets_handling.2.2 ⟨"/r", "demo", 8080, 8180, 8280, "", ""⟩).1

/-- The registry rows for an instance after `store`: exactly the three
freshly written rows, provided every pre-existing row for the instance
used one of the three fixed container names. -/
theorem filter_store (db : List Row) (c : DeployConfig)
    (H : ∀ r ∈ db, r.instanceName = c.instanceName →
      r.containerName = c.instanceName ++ "-app" ∨
      r.containerName = c.instanceName ++ "-postgres" ∨
      r.containerName = c.instanceName ++ "-neo4j") :
    (StoreInstanceContainers db c).filter
        (fun r => r.instanceName == c.instanceName) =
      [rowFor c (c.instanceName ++ "-app"),
       rowFor c (c.instanceName ++ "-postgres"),
       rowFor c (c.instanceName ++ "-neo4j")] := by
  have hAP : ((c.instanceName ++ "-app" : String) ==
      (c.instanceName ++ "-postgres" : String)) = false :=
    beq_eq_false_iff_ne.mpr (string_append_right_ne _ (by decide))
  have hAN : ((c.instanceName ++ "-app" : String) ==
      (c.instanceName ++ "-neo4j" : String)) = false :=
    beq_eq_false_iff_ne.mpr (string_append_right_ne _ (by decide))
  have hPN : ((c.instanceName ++ "-postgres" : String) ==
      (c.instanceName ++ "-neo4j" : String)) = false :=
    beq_eq_false_iff_ne.mpr (string_append_right_ne _ (by decide))
  simp only [StoreInstanceContainers, upsert, rowFor, List.filter_append,
    List.filter_cons, List.filter_nil, hAP, hAN, hPN, beq_self_eq_true,
    Bool.and_true, Bool.and_false, Bool.not_true, Bool.not_false,
    Bool.true_and, Bool.false_and, if_true, if_false]
  simp only [List.filter_filter]
  rw [List.filter_eq_nil_iff.mpr]
  · simp
  · intro r hr
    by_cases hn : r.instanceName = c.instanceName
    · rcases H r hr hn with hc | hc | hc <;> simp [hn, hc]
    · have : (r.instanceName == c.instanceName) = false :=
        beq_eq_false_iff_ne.mpr hn
      simp [this]

/-- Claim C6: after `store(config)`, reading back the containers of
`config.instanceName` yields exactly three records — a permutation of
the three rows carrying the `-app`, `-postgres` and `-neo4j` container
names together with the stored repository path and ports — provided the
store held no foreign container name for that instance (the only rows
the program ever writes are these three). -/
theorem c6_store_get_roundtrip (db : List Row) (c : DeployConfig)
    (H : ∀ r ∈ db, r.instanceName = c.instanceName →
      r.containerName = c.instanceName ++ "-app" ∨
      r.containerName = c.instanceName ++ "-postgres" ∨
      r.containerName = c.instanceName ++ "-neo4j") :
    (GetInstanceContainers (StoreInstanceContainers db c) c.instanceName).length = 3 ∧
    List.Perm (GetInstanceContainers (StoreInstanceContainers db c) c.instanceName)
      [rowFor c (c.instanceName ++ "-app"),
       rowFor c (c.instanceName ++ "-postgres"),
       rowFor c (c.instanceName ++ "-neo4j")] := by
  have hperm : List.Perm
      (GetInstanceContainers (StoreInstanceContainers db c) c.instanceName)
      [rowFor c (c.instanceName ++ "-app"),
       rowFor c (c.instanceName ++ "-postgres"),
       rowFor c (c.instanceName ++ "-neo4j")] := by
    unfold GetInstanceContainers
    rw [filter_store db c H]
    exact List.perm_insertionSort _ _
  exact ⟨by rw [hperm.length_eq]; rfl, hperm⟩

/-- Witness for C6 on the empty store and a concrete config. -/
theorem c6_witness :
    (∀ r ∈ ([] : List Row), r.instanceName = "demo" →
      r.containerName = "demo" ++ "-app" ∨
      r.containerName = "demo" ++ "-postgres" ∨
      r.containerName = "demo" ++ "-neo4j") ∧
    (GetInstanceContainers
        (StoreInstanceContainers []
          ⟨"/r", "demo", 8080, 8180, 8280, "", ""⟩) "demo").length = 3 ∧
    List.Perm
      (GetInstanceContainers
        (StoreInstanceContainers []
          ⟨"/r", "demo", 8080, 8180, 8280, "", ""⟩) "demo")
      [rowFor ⟨"/r", "demo", 8080, 8180, 8280, "", ""⟩ ("demo" ++ "-app"),
       rowFor ⟨"/r", "demo", 8080, 8180, 8280, "", ""⟩ ("demo" ++ "-postgres"),
       rowFor ⟨"/r", "demo", 8080, 8180, 8280, "", ""⟩ ("demo" ++ "-neo4j")] := by
  refine ⟨by simp, ?_, ?_⟩
  · exact (c6_store_get_roundtrip []
      ⟨"/r", "demo", 8080, 8180, 8280, "", ""⟩ (by simp)).1
  · exact (c6_store_get_roundtrip []
      ⟨"/r", "demo", 8080, 8180, 8280, "", ""⟩ (by simp)).2

/-- Witness for C10: a live instance, a successful read, and the
response `No` (with trailing newline) cancel the removal. -/
theorem c10_witness :
    (InstanceExists (some "graphsense-x-app") = true) ∧
    (trimSpace (goToLower "No\n") ≠ "y") ∧
    (trimSpace (goToLower "No\n") ≠ "yes") ∧
    removeInstance ⟨some "graphsense-x-app", true, "No\n", true, true⟩
        [] "graphsense-x" = (.ok (), [], []) := by
  refine ⟨by decide, by decide, by decide, ?_⟩
  exact c10_cancel_no_effects _ _ _ (by decide) rfl (by decide) (by decide)

end GraphSense
